import Mathlib

/-!
Shallow embedding of `src/stellarmesh.py` (class `MOABModel`, in particular
`MOABModel.make_from_mesh`), the DAGMC topology-graph builder.

Modelling conventions:
* pymoab entity handles are natural numbers; handle `0` is the null sentinel
  (as in `MOABSurface`'s defaults).  A fresh `pymoab.core.Core` allocates
  handles sequentially starting from 1.
* The pymoab database (`Core`) is explicit state: tag data is stored in
  per-tag association lists where a write prepends and a read takes the most
  recent entry; entity-set contents and the global entity list are explicit.
* The gmsh mesh is a `MeshProvider`: for each volume (in
  `gmsh.model.get_entities(3)` order) the list of adjacent surface tags
  (`gmsh.model.get_adjacencies(3, v)[1]`), plus, for each surface tag, the
  number of mesh entities (vertices/triangles) contained in its faceted STL
  patch.  `Core.load_surface_facets` models the physical-group/STL round trip
  of lines 372-378: it appends the surface tag to an extraction log and loads
  that many fresh entities into the database and into the surface's set.
* Python `raise ValueError` becomes `Except.error`, carrying the database
  state at the moment of the raise.
-/

namespace Stellarmesh

/-- Tag value types, mirroring the `pymoab.types.MB_TYPE_*` constants used by
the source.  `MB_TYPE_BYTES` stands for the byte-string ("opaque") tag type. -/
inductive TagType where
  | MB_TYPE_HANDLE
  | MB_TYPE_BYTES
  | MB_TYPE_INTEGER
  | MB_TYPE_DOUBLE
deriving DecidableEq, Repr

/-- A tag definition in the database: name, size and value type. -/
structure TagDef where
  name : String
  size : Nat
  type : TagType
deriving DecidableEq, Repr

/-- Models `pymoab.core.Core.tag_get_handle(name, size, type, storage,
create_if_missing=True)`: return the existing definition when a tag of that
name exists with compatible size/type, error when it exists with an
incompatible signature, and create the definition when missing. -/
def tag_get_handle (defs : List TagDef) (name : String) (size : Nat)
    (ty : TagType) : Except String (List TagDef) :=
  match defs.find? (fun d => d.name == name) with
  | some d => if d.size = size ∧ d.type = ty then .ok defs
              else .error "tag exists with incompatible type or size"
  | none => .ok (defs ++ [⟨name, size, ty⟩])

/-- Models `core.tag_get_handle(name)` without `create_if_missing` (used for
the default `GLOBAL_ID` tag, line 317): pure lookup, error when missing. -/
def tag_get_handle_existing (defs : List TagDef) (name : String) :
    Except String (List TagDef) :=
  match defs.find? (fun d => d.name == name) with
  | some _ => .ok defs
  | none => .error "tag not found"

/-- The tag-schema setup of `make_from_mesh`, lines 267-317: the five
`create_if_missing` calls (GEOM_SENSE_2, CATEGORY, NAME, GEOM_DIMENSION,
FACETING_TOL) followed by the lookup of the default GLOBAL_ID tag, in source
order, with the sizes and types of the source. -/
def create_tag_schema (defs : List TagDef) : Except String (List TagDef) := do
  let defs ← tag_get_handle defs "GEOM_SENSE_2" 2 .MB_TYPE_HANDLE
  let defs ← tag_get_handle defs "CATEGORY" 32 .MB_TYPE_BYTES
  let defs ← tag_get_handle defs "NAME" 32 .MB_TYPE_BYTES
  let defs ← tag_get_handle defs "GEOM_DIMENSION" 1 .MB_TYPE_INTEGER
  let defs ← tag_get_handle defs "FACETING_TOL" 1 .MB_TYPE_DOUBLE
  let defs ← tag_get_handle_existing defs "GLOBAL_ID"
  return defs

/-- The pymoab database state used by `make_from_mesh`. -/
structure Core where
  tag_defs : List TagDef
  /-- Next fresh entity handle (allocation starts at 1; 0 is the null
  sentinel). -/
  next_handle : Nat
  /-- All entities of the database in creation order; this is what
  `core.get_entities_by_handle(0)` (the root set) enumerates. -/
  entities : List Nat
  /-- The subset of `entities` that are facet mesh entities loaded from STL
  patches (as opposed to created meshsets). -/
  facet_entities : List Nat
  global_id : List (Nat × Nat)
  geom_dimension : List (Nat × Nat)
  category : List (Nat × String)
  name_tag : List (Nat × String)
  surf_sense : List (Nat × List Nat)
  faceting_tol : List (Nat × ℚ)
  parent_child : List (Nat × Nat)
  set_contents : List (Nat × List Nat)
  /-- Log of the surface tags whose facet geometry has been extracted from
  gmsh (the physical-group/STL export of lines 372-378), in order. -/
  extraction_log : List Nat
deriving DecidableEq, Repr

/-- Read the most recently written value of a sparse tag on a handle. -/
def tagLookup {α : Type} (store : List (Nat × α)) (h : Nat) : Option α :=
  (store.find? (fun p => p.1 == h)).map Prod.snd

/-- A fresh `pymoab.core.Core()`: no entities, and only the default
`GLOBAL_ID` tag (1 integer) predefined. -/
def Core.init : Core where
  tag_defs := [⟨"GLOBAL_ID", 1, .MB_TYPE_INTEGER⟩]
  next_handle := 1
  entities := []
  facet_entities := []
  global_id := []
  geom_dimension := []
  category := []
  name_tag := []
  surf_sense := []
  faceting_tol := []
  parent_child := []
  set_contents := []
  extraction_log := []

/-- `core.create_meshset()`: allocate a fresh entity handle. -/
def Core.create_meshset (c : Core) : Nat × Core :=
  (c.next_handle,
   { c with next_handle := c.next_handle + 1,
            entities := c.entities ++ [c.next_handle] })

/-- The current contents of an entity set (empty when never written). -/
def Core.getContents (c : Core) (h : Nat) : List Nat :=
  (tagLookup c.set_contents h).getD []

/-- `core.add_entities(h, es)`: append entities to a set's contents. -/
def Core.add_entities (c : Core) (h : Nat) (es : List Nat) : Core :=
  { c with set_contents := (h, c.getContents h ++ es) :: c.set_contents }

/-- `core.add_entity(h, e)`. -/
def Core.add_entity (c : Core) (h e : Nat) : Core := c.add_entities h [e]

/-- `core.add_parent_child(p, ch)`. -/
def Core.add_parent_child (c : Core) (p ch : Nat) : Core :=
  { c with parent_child := c.parent_child ++ [(p, ch)] }

def Core.set_global_id (c : Core) (h v : Nat) : Core :=
  { c with global_id := (h, v) :: c.global_id }

def Core.set_geom_dimension (c : Core) (h v : Nat) : Core :=
  { c with geom_dimension := (h, v) :: c.geom_dimension }

def Core.set_category (c : Core) (h : Nat) (v : String) : Core :=
  { c with category := (h, v) :: c.category }

def Core.set_name (c : Core) (h : Nat) (v : String) : Core :=
  { c with name_tag := (h, v) :: c.name_tag }

def Core.set_surf_sense (c : Core) (h : Nat) (v : List Nat) : Core :=
  { c with surf_sense := (h, v) :: c.surf_sense }

def Core.set_faceting_tol (c : Core) (h : Nat) (v : ℚ) : Core :=
  { c with faceting_tol := (h, v) :: c.faceting_tol }

/-- Models lines 372-378 of the source (first-encounter facet extraction):
export the surface `tag` as an STL physical group (recorded in the extraction
log) and `core.load_file(stl, set_handle)` the resulting `k` facet mesh
entities: they enter the database and the surface's entity set. -/
def Core.load_surface_facets (c : Core) (tag k set_handle : Nat) : Core :=
  let fresh := (List.range k).map (fun j => c.next_handle + j)
  { c with next_handle := c.next_handle + k,
           entities := c.entities ++ fresh,
           facet_entities := c.facet_entities ++ fresh,
           set_contents := (set_handle, c.getContents set_handle ++ fresh)
                           :: c.set_contents,
           extraction_log := c.extraction_log ++ [tag] }

/-- `MOABSurface` (lines 20-34): handle plus forward/reverse volume
references, defaulting to the 0 sentinel. -/
structure MOABSurface where
  handle : Nat
  forward_volume : Nat := 0
  reverse_volume : Nat := 0
deriving DecidableEq, Repr

/-- `MOABSurface.sense_data` (lines 28-34). -/
def MOABSurface.sense_data (s : MOABSurface) : List Nat :=
  [s.forward_volume, s.reverse_volume]

/-- The gmsh mesh at the interface consumed by `make_from_mesh`:
`volumes` lists, for each 3D volume in `gmsh.model.get_entities(3)` order,
the surface tags adjacent to it (`gmsh.model.get_adjacencies(3, v)[1]`);
`facet_count s` is the number of mesh entities in surface `s`'s STL patch. -/
structure MeshProvider where
  volumes : List (List Nat)
  facet_count : Nat → Nat

/-- The local state of the `make_from_mesh` volume loop: the database and the
`known_surfaces` registry (line 319), plus the lists of volume and group
meshset handles created so far (the values taken by `volume_set_handle` and
`group_set` across iterations, in order). -/
structure LoopState where
  core : Core
  known_surfaces : List (Nat × MOABSurface)
  volume_sets : List Nat
  group_sets : List Nat
deriving DecidableEq, Repr

/-- `known_surfaces[surface_tag]` lookup. -/
def regLookup (reg : List (Nat × MOABSurface)) (s : Nat) : Option MOABSurface :=
  (reg.find? (fun p => p.1 == s)).map Prod.snd

/-- In-place mutation of the registry entry for key `s` (Python mutates the
`MOABSurface` object stored in the dict; its dict position is unchanged). -/
def regUpdate (reg : List (Nat × MOABSurface)) (s : Nat) (v : MOABSurface) :
    List (Nat × MOABSurface) :=
  reg.map (fun p => if p.1 = s then (s, v) else p)

/-- First-encounter branch of the surface loop (lines 351-378 plus the
`add_parent_child` of line 391). -/
def process_surface_new (mesh : MeshProvider) (volume_set_handle : Nat)
    (st : LoopState) (surface_tag : Nat) : LoopState :=
  let p := st.core.create_meshset
  let surface : MOABSurface :=
    { handle := p.1, forward_volume := volume_set_handle }
  let known := st.known_surfaces ++ [(surface_tag, surface)]
  let core := p.2.set_global_id surface.handle surface_tag
  let core := core.set_geom_dimension surface.handle 2
  let core := core.set_category surface.handle "Surface"
  let core := core.set_surf_sense surface.handle surface.sense_data
  let core := core.load_surface_facets surface_tag
      (mesh.facet_count surface_tag) surface.handle
  let core := core.add_parent_child volume_set_handle surface.handle
  { st with core := core, known_surfaces := known }

/-- Registry-hit branch of the surface loop (lines 380-389 plus line 391):
the surface already has a forward volume, so this volume becomes the reverse
volume and `surf_sense` is rewritten. -/
def process_surface_hit (volume_set_handle : Nat) (st : LoopState)
    (surface_tag : Nat) (surface0 : MOABSurface) : LoopState :=
  let surface : MOABSurface := { surface0 with reverse_volume := volume_set_handle }
  let known := regUpdate st.known_surfaces surface_tag surface
  let core := st.core.set_surf_sense surface.handle surface.sense_data
  let core := core.add_parent_child volume_set_handle surface.handle
  { st with core := core, known_surfaces := known }

/-- One iteration of `for surface_tag in surface_tags` (lines 350-391). -/
def process_surface (mesh : MeshProvider) (volume_set_handle : Nat)
    (st : LoopState) (surface_tag : Nat) : LoopState :=
  match regLookup st.known_surfaces surface_tag with
  | none => process_surface_new mesh volume_set_handle st surface_tag
  | some surface0 => process_surface_hit volume_set_handle st surface_tag surface0

/-- One iteration of `for i, volume_tag in enumerate(volume_tags)` (lines
327-391): create and tag the volume set, create and tag its group set, then
walk the volume's adjacent surfaces. -/
def process_volume (mesh : MeshProvider) (material_names : List String)
    (st : LoopState) (i : Nat) (adjacency : List Nat) : LoopState :=
  let p := st.core.create_meshset
  let volume_set_handle := p.1
  let core := p.2.set_global_id volume_set_handle i
  let core := core.set_geom_dimension volume_set_handle 3
  let core := core.set_category volume_set_handle "Volume"
  let q := core.create_meshset
  let group_set := q.1
  let core := q.2.set_category group_set "Group"
  let core := core.set_name group_set ("mat:" ++ material_names.getD i "")
  let core := core.set_geom_dimension group_set 4
  let core := core.add_entity group_set volume_set_handle
  let st1 : LoopState :=
    { core := core,
      known_surfaces := st.known_surfaces,
      volume_sets := st.volume_sets ++ [volume_set_handle],
      group_sets := st.group_sets ++ [group_set] }
  adjacency.foldl (process_surface mesh volume_set_handle) st1

/-- The volume loop, indexed as by `enumerate`. -/
def process_volumes (mesh : MeshProvider) (material_names : List String) :
    Nat → List (List Nat) → LoopState → LoopState
  | _, [], st => st
  | i, adjacency :: rest, st =>
      process_volumes mesh material_names (i + 1) rest
        (process_volume mesh material_names st i adjacency)

/-- `faceting_tol` value written on the file set (line 399), `1e-3`. -/
def faceting_tol_value : ℚ := 1 / 1000

/-- The result of a successful `make_from_mesh` run: the final database, the
final registry, and the handles of the created volume sets, group sets and
the file set. -/
structure BuildResult where
  core : Core
  known_surfaces : List (Nat × MOABSurface)
  volume_sets : List Nat
  group_sets : List Nat
  file_set : Nat
deriving DecidableEq, Repr

instance : Inhabited BuildResult :=
  ⟨⟨Core.init, [], [], [], 0⟩⟩

/-- Lines 393-400: enumerate all entities of the root set, create the file
set, tag its faceting tolerance, and add all previously created entities to
it. -/
def finalize (st : LoopState) : BuildResult :=
  let all_entities := st.core.entities
  let p := st.core.create_meshset
  let file_set := p.1
  let core := p.2.set_faceting_tol file_set faceting_tol_value
  let core := core.add_entities file_set all_entities
  ⟨core, st.known_surfaces, st.volume_sets, st.group_sets, file_set⟩

/-- The initial loop state on a database that has just had its tag schema
created. -/
def initialState (core : Core) : LoopState := ⟨core, [], [], []⟩

/-- `MOABModel.make_from_mesh` (lines 245-402), modulo the out-of-scope
`write`/`make_watertight` steps on the produced file: create a fresh core,
create the tag schema, check the volume/material-name count, run the volume
loop, and assemble the file set.  Errors carry the database state at the
moment of the corresponding Python `raise`. -/
def make_from_mesh (mesh : MeshProvider) (material_names : List String) :
    Except (String × Core) BuildResult :=
  match create_tag_schema Core.init.tag_defs with
  | .error e => .error (e, Core.init)
  | .ok defs =>
    let core : Core := { Core.init with tag_defs := defs }
    if mesh.volumes.length ≠ material_names.length then
      .error ("Number of volumes does not match number of material names", core)
    else
      .ok (finalize (process_volumes mesh material_names 0 mesh.volumes
             (initialState core)))

/-- The tag definitions present after schema creation on a fresh core. -/
def fullSchemaDefs : List TagDef :=
  [⟨"GLOBAL_ID", 1, .MB_TYPE_INTEGER⟩,
   ⟨"GEOM_SENSE_2", 2, .MB_TYPE_HANDLE⟩,
   ⟨"CATEGORY", 32, .MB_TYPE_BYTES⟩,
   ⟨"NAME", 32, .MB_TYPE_BYTES⟩,
   ⟨"GEOM_DIMENSION", 1, .MB_TYPE_INTEGER⟩,
   ⟨"FACETING_TOL", 1, .MB_TYPE_DOUBLE⟩]

/-- The handle-adjacency pairs `(volume entity handle, adjacent surface ids)`
of the volumes encountering surface id `s`, projected to the handles, in
visitation order. -/
def encVols (l : List (Nat × List Nat)) (s : Nat) : List Nat :=
  (l.filter (fun p => decide (s ∈ p.2))).map Prod.fst

/-- The indices (in visitation order) of the volumes whose adjacency list
contains surface id `s`. -/
def volumesContaining (mesh : MeshProvider) (s : Nat) : List Nat :=
  encVols ((List.range mesh.volumes.length).zip mesh.volumes) s

/-- Concatenation of all adjacency lists of a handle-adjacency pair list. -/
def catAdj : List (Nat × List Nat) → List Nat
  | [] => []
  | p :: l => p.2 ++ catAdj l

/-- Concatenation of a list of lists. -/
def catLists : List (List Nat) → List Nat
  | [] => []
  | a :: l => a ++ catLists l

/-- Concatenation of all volumes' adjacency lists of the mesh. -/
def allSurfaceIds (mesh : MeshProvider) : List Nat :=
  catLists mesh.volumes

/-- Deduplication keeping the first occurrence of each element, in order. -/
def dedupFirst : List Nat → List Nat
  | [] => []
  | x :: xs => x :: (dedupFirst xs).filter (fun y => y ≠ x)

/-- The handles of the surface entities created during the run, in creation
(first-encounter) order: registry entries never change their handle. -/
def surfaceEntities (r : BuildResult) : List Nat :=
  r.known_surfaces.map (fun p => p.2.handle)

/-- Extract the result of a successful run (default result on error). -/
def resultOf (e : Except (String × Core) BuildResult) : BuildResult :=
  match e with
  | .ok r => r
  | .error _ => default

/-- The spec's concrete scenario (section 8): two volumes sharing the
interior surface 2, with boundary surfaces 1 and 3, one facet entity in each
surface patch. -/
def exMesh : MeshProvider := ⟨[[1, 2], [2, 3]], fun _ => 1⟩

def exNames : List String := ["steel", "vacuum"]

def exResult : BuildResult := resultOf (make_from_mesh exMesh exNames)

/-- A mesh with no volumes. -/
def emptyMesh : MeshProvider := ⟨[], fun _ => 0⟩

def emptyResult : BuildResult := resultOf (make_from_mesh emptyMesh [])

/-- A minimal mesh whose single surface carries one facet entity. -/
def cexMesh : MeshProvider := ⟨[[1]], fun _ => 1⟩

def cexResult : BuildResult := resultOf (make_from_mesh cexMesh ["steel"])

/-- A mesh whose surface 5 is shared by three volumes (non-manifold
topology). -/
def triMesh : MeshProvider := ⟨[[5, 1], [5], [5, 2]], fun _ => 1⟩

def triNames : List String := ["a", "b", "c"]

def triResult : BuildResult := resultOf (make_from_mesh triMesh triNames)

/-! ### Helper lemmas about lookups, registries and encounter lists -/

theorem tagLookup_cons_self {α : Type} (store : List (Nat × α)) (h : Nat) (v : α) :
    tagLookup ((h, v) :: store) h = some v := by
  simp [tagLookup, List.find?_cons]

theorem tagLookup_cons_ne {α : Type} (store : List (Nat × α)) (h h' : Nat) (v : α)
    (hne : h' ≠ h) : tagLookup ((h, v) :: store) h' = tagLookup store h' := by
  have hb : ((h, v).1 == h') = false := by simpa using (Ne.symm hne)
  simp [tagLookup, List.find?_cons, hb]

theorem regLookup_eq_none_iff (reg : List (Nat × MOABSurface)) (s : Nat) :
    regLookup reg s = none ↔ s ∉ reg.map Prod.fst := by
  simp only [regLookup, Option.map_eq_none', List.find?_eq_none, List.mem_map]
  constructor
  · rintro h ⟨p, hp, he⟩
    exact absurd (by simpa using he) (by simpa using h p hp)
  · intro h p hp
    simp only [beq_iff_eq]
    intro he
    exact h ⟨p, hp, he⟩

theorem regLookup_cons_eq {p : Nat × MOABSurface} {rest : List (Nat × MOABSurface)}
    {s : Nat} (h : p.1 = s) : regLookup (p :: rest) s = some p.2 := by
  have hb : (p.1 == s) = true := by simpa using h
  simp [regLookup, List.find?_cons, hb]

theorem regLookup_cons_ne {p : Nat × MOABSurface} {rest : List (Nat × MOABSurface)}
    {s : Nat} (h : p.1 ≠ s) : regLookup (p :: rest) s = regLookup rest s := by
  have hb : (p.1 == s) = false := by simpa using h
  simp [regLookup, List.find?_cons, hb]

theorem regLookup_mem {reg : List (Nat × MOABSurface)} {s : Nat} {surf : MOABSurface}
    (h : regLookup reg s = some surf) : (s, surf) ∈ reg := by
  induction reg with
  | nil => simp [regLookup] at h
  | cons p rest ih =>
    by_cases hp : p.1 = s
    · rw [regLookup_cons_eq hp] at h
      have h2 : p.2 = surf := by injection h
      rw [← hp, ← h2]
      exact List.mem_cons_self p rest
    · rw [regLookup_cons_ne hp] at h
      exact List.mem_cons_of_mem p (ih h)

theorem regLookup_of_mem_nodup {reg : List (Nat × MOABSurface)} {s : Nat}
    {surf : MOABSurface} (hnd : (reg.map Prod.fst).Nodup)
    (hm : (s, surf) ∈ reg) : regLookup reg s = some surf := by
  induction reg with
  | nil => simp at hm
  | cons p rest ih =>
    have hnd' : p.1 ∉ rest.map Prod.fst ∧ (rest.map Prod.fst).Nodup := by
      rw [List.map_cons, List.nodup_cons] at hnd
      exact hnd
    rcases List.mem_cons.1 hm with he | hm'
    · rw [← he]
      exact regLookup_cons_eq rfl
    · have hne : p.1 ≠ s := by
        intro he
        apply hnd'.1
        rw [he]
        exact List.mem_map.2 ⟨(s, surf), hm', rfl⟩
      rw [regLookup_cons_ne hne]
      exact ih hnd'.2 hm'

theorem regUpdate_cons (p : Nat × MOABSurface) (rest : List (Nat × MOABSurface))
    (t : Nat) (v : MOABSurface) :
    regUpdate (p :: rest) t v =
      (if p.1 = t then (t, v) else p) :: regUpdate rest t v := rfl

theorem regUpdate_map_fst (reg : List (Nat × MOABSurface)) (s : Nat)
    (v : MOABSurface) : (regUpdate reg s v).map Prod.fst = reg.map Prod.fst := by
  unfold regUpdate
  rw [List.map_map]
  apply List.map_congr_left
  intro p _
  by_cases h : p.1 = s <;> simp [h]

theorem regUpdate_map_handle (reg : List (Nat × MOABSurface)) (s : Nat)
    (v : MOABSurface) (hv : ∀ p ∈ reg, p.1 = s → p.2.handle = v.handle) :
    (regUpdate reg s v).map (fun p => p.2.handle) =
      reg.map (fun p => p.2.handle) := by
  unfold regUpdate
  rw [List.map_map]
  apply List.map_congr_left
  intro p hp
  by_cases h : p.1 = s
  · simp [h, (hv p hp h).symm]
  · simp [h]

theorem regLookup_regUpdate_ne (reg : List (Nat × MOABSurface)) (t : Nat)
    (v : MOABSurface) (s : Nat) (hne : s ≠ t) :
    regLookup (regUpdate reg t v) s = regLookup reg s := by
  induction reg with
  | nil => rfl
  | cons p rest ih =>
    rw [regUpdate_cons]
    by_cases h : p.1 = t
    · rw [if_pos h]
      rw [regLookup_cons_ne (p := (t, v)) (Ne.symm hne)]
      rw [regLookup_cons_ne (by rw [h]; exact Ne.symm hne)]
      exact ih
    · rw [if_neg h]
      by_cases hs : p.1 = s
      · rw [regLookup_cons_eq hs, regLookup_cons_eq hs]
      · rw [regLookup_cons_ne hs, regLookup_cons_ne hs]
        exact ih

theorem regLookup_regUpdate_self (reg : List (Nat × MOABSurface)) (t : Nat)
    (v : MOABSurface) (hmem : t ∈ reg.map Prod.fst) :
    regLookup (regUpdate reg t v) t = some v := by
  induction reg with
  | nil => simp at hmem
  | cons p rest ih =>
    rw [regUpdate_cons]
    by_cases h : p.1 = t
    · rw [if_pos h, regLookup_cons_eq (p := (t, v)) rfl]
    · rw [if_neg h, regLookup_cons_ne h]
      apply ih
      rcases List.mem_map.1 hmem with ⟨q, hq, he⟩
      rcases List.mem_cons.1 hq with rfl | hq'
      · exact absurd he h
      · exact List.mem_map.2 ⟨q, hq', he⟩

theorem mem_regUpdate {reg : List (Nat × MOABSurface)} {t : Nat}
    {v : MOABSurface} {q : Nat × MOABSurface} (hm : q ∈ regUpdate reg t v) :
    (q ∈ reg ∧ q.1 ≠ t) ∨ q = (t, v) := by
  unfold regUpdate at hm
  obtain ⟨p, hp, he⟩ := List.mem_map.1 hm
  by_cases h : p.1 = t
  · right
    rw [if_pos h] at he
    exact he.symm
  · left
    rw [if_neg h] at he
    rw [← he]
    exact ⟨hp, h⟩

/-! ### Encounter lists -/

theorem encVols_append (l₁ l₂ : List (Nat × List Nat)) (s : Nat) :
    encVols (l₁ ++ l₂) s = encVols l₁ s ++ encVols l₂ s := by
  simp [encVols, List.filter_append]

theorem encVols_cons (p : Nat × List Nat) (l : List (Nat × List Nat)) (s : Nat) :
    encVols (p :: l) s = (if s ∈ p.2 then [p.1] else []) ++ encVols l s := by
  by_cases h : s ∈ p.2 <;> simp [encVols, List.filter_cons, h]

theorem encVols_single (h : Nat) (adj : List Nat) (s : Nat) :
    encVols [(h, adj)] s = if s ∈ adj then [h] else [] := by
  by_cases hs : s ∈ adj <;> simp [encVols, hs]

theorem mem_encVols {l : List (Nat × List Nat)} {s x : Nat}
    (hx : x ∈ encVols l s) : ∃ p ∈ l, p.1 = x ∧ s ∈ p.2 := by
  simp only [encVols, List.mem_map, List.mem_filter] at hx
  obtain ⟨p, ⟨hp, hs⟩, he⟩ := hx
  exact ⟨p, hp, he, by simpa using hs⟩

theorem catAdj_append (l₁ l₂ : List (Nat × List Nat)) :
    catAdj (l₁ ++ l₂) = catAdj l₁ ++ catAdj l₂ := by
  induction l₁ with
  | nil => rfl
  | cons p rest ih => simp [catAdj, ih]

theorem encVols_eq_nil_iff (l : List (Nat × List Nat)) (s : Nat) :
    encVols l s = [] ↔ s ∉ catAdj l := by
  induction l with
  | nil => simp [encVols, catAdj]
  | cons p rest ih =>
    rw [encVols_cons]
    by_cases h : s ∈ p.2 <;> simp [catAdj, h, ih]

theorem catAdj_zip (hs : List Nat) (vols : List (List Nat))
    (hlen : hs.length = vols.length) : catAdj (hs.zip vols) = catLists vols := by
  induction vols generalizing hs with
  | nil =>
    have : hs = [] := List.length_eq_zero.1 (by simpa using hlen)
    simp [this, catAdj, catLists]
  | cons adj rest ih =>
    cases hs with
    | nil => simp at hlen
    | cons a t =>
      rw [List.zip_cons_cons]
      show adj ++ catAdj (t.zip rest) = adj ++ catLists rest
      rw [ih t (by simpa using hlen)]

/-! ### First-occurrence deduplication -/

theorem mem_dedupFirst {x : Nat} {l : List Nat} : x ∈ dedupFirst l ↔ x ∈ l := by
  induction l with
  | nil => simp [dedupFirst]
  | cons y ys ih =>
    simp only [dedupFirst, List.mem_cons, List.mem_filter, ih]
    by_cases h : x = y <;> simp [h]

theorem dedupFirst_nodup (l : List Nat) : (dedupFirst l).Nodup := by
  induction l with
  | nil => simp [dedupFirst]
  | cons y ys ih =>
    rw [dedupFirst, List.nodup_cons]
    refine ⟨?_, ih.filter _⟩
    intro hmem
    have := (List.mem_filter.1 hmem).2
    simp at this

theorem dedupFirst_concat (l : List Nat) (t : Nat) :
    dedupFirst (l ++ [t]) =
      if t ∈ l then dedupFirst l else dedupFirst l ++ [t] := by
  induction l with
  | nil => simp [dedupFirst]
  | cons y ys ih =>
    have hstep : dedupFirst ((y :: ys) ++ [t])
        = y :: (dedupFirst (ys ++ [t])).filter (fun z => z ≠ y) := rfl
    rw [hstep, ih]
    by_cases h : t ∈ ys
    · rw [if_pos h, if_pos (List.mem_cons_of_mem y h)]
      rfl
    · rw [if_neg h]
      by_cases hy : t = y
      · rw [if_pos (by simp [hy]), List.filter_append]
        have ht : List.filter (fun z => decide (z ≠ y)) [t] = [] := by simp [hy]
        rw [ht, List.append_nil]
        rfl
      · rw [if_neg (by simp [hy, h]), List.filter_append]
        have ht : List.filter (fun z => decide (z ≠ y)) [t] = [t] := by simp [hy]
        rw [ht]
        rfl

theorem dedupFirst_length (l : List Nat) :
    (dedupFirst l).length = l.toFinset.card := by
  have h1 : (dedupFirst l).toFinset = l.toFinset := by
    ext x
    simp [List.mem_toFinset, mem_dedupFirst]
  rw [← h1, List.toFinset_card_of_nodup (dedupFirst_nodup l)]

/-! ### List index helpers -/

theorem getD_concat_length (l : List Nat) (x d : Nat) :
    (l ++ [x]).getD l.length d = x := by
  induction l with
  | nil => rfl
  | cons a t ih => exact ih

theorem headD_map_ne_nil (f : Nat → Nat) (l : List Nat) (h : l ≠ []) (d d' : Nat) :
    (l.map f).headD d = f (l.headD d') := by
  cases l with
  | nil => exact absurd rfl h
  | cons a t => rfl

theorem getLastD_map_ne_nil (f : Nat → Nat) :
    ∀ (l : List Nat), l ≠ [] → ∀ (d d' : Nat),
      (l.map f).getLastD d = f (l.getLastD d') := by
  intro l
  induction l with
  | nil => intro h; exact absurd rfl h
  | cons a t ih =>
    intro _ d d'
    cases t with
    | nil => rfl
    | cons b u =>
      rw [List.map_cons, List.getLastD_cons, List.getLastD_cons]
      exact ih (by simp) (f a) a

theorem headD_append_ne_nil (l l' : List Nat) (h : l ≠ []) (d : Nat) :
    (l ++ l').headD d = l.headD d := by
  cases l with
  | nil => exact absurd rfl h
  | cons a t => rfl

theorem encVols_map_getD (s : Nat) :
    ∀ (vols : List (List Nat)) (as bs : List Nat) (f : Nat → Nat),
      as.length = vols.length → bs.length = vols.length →
      (∀ k, k < vols.length → bs.getD k 0 = f (as.getD k 0)) →
      encVols (bs.zip vols) s = (encVols (as.zip vols) s).map f := by
  intro vols
  induction vols with
  | nil =>
    intro as bs f _ _ _
    simp [encVols]
  | cons adj rest ih =>
    intro as bs f ha hb hk
    cases as with
    | nil => simp at ha
    | cons a as' =>
      cases bs with
      | nil => simp at hb
      | cons b bs' =>
        have hb0 : b = f a := by simpa using hk 0 (by simp)
        have hrec := ih as' bs' f (by simpa using ha) (by simpa using hb)
          (fun k hk' => by simpa using hk (k + 1) (by simpa using hk'))
        rw [List.zip_cons_cons, List.zip_cons_cons, encVols_cons, encVols_cons]
        by_cases hs : s ∈ adj <;> simp [hs, hrec, hb0]

theorem encVols_zip_eq_map (vs : List Nat) (vols : List (List Nat)) (s : Nat)
    (hlen : vs.length = vols.length) :
    encVols (vs.zip vols) s =
      (encVols ((List.range vols.length).zip vols) s).map
        (fun i => vs.getD i 0) := by
  apply encVols_map_getD s vols (List.range vols.length) vs _ (by simp) hlen
  intro k hk
  rw [List.getD_eq_getElem (List.range vols.length) 0 (by simpa using hk),
    List.getElem_range]

theorem catAdj_singleton (h : Nat) (adj : List Nat) : catAdj [(h, adj)] = adj := by
  simp [catAdj]

theorem getD_mem_of_lt (l : List Nat) (k : Nat) (h : k < l.length) :
    l.getD k 0 ∈ l := by
  rw [List.getD_eq_getElem l 0 h]
  exact List.getElem_mem h

/-! ### Loop-body equations: the states produced by the three loop bodies,
spelled out field by field (each is definitional). -/

theorem process_surface_new_eq (mesh : MeshProvider) (h : Nat) (st : LoopState)
    (t : Nat) :
    process_surface_new mesh h st t =
      { core :=
          { tag_defs := st.core.tag_defs
            next_handle := st.core.next_handle + 1 + mesh.facet_count t
            entities := st.core.entities ++ [st.core.next_handle] ++
              (List.range (mesh.facet_count t)).map
                (fun j => st.core.next_handle + 1 + j)
            facet_entities := st.core.facet_entities ++
              (List.range (mesh.facet_count t)).map
                (fun j => st.core.next_handle + 1 + j)
            global_id := (st.core.next_handle, t) :: st.core.global_id
            geom_dimension := (st.core.next_handle, 2) :: st.core.geom_dimension
            category := (st.core.next_handle, "Surface") :: st.core.category
            name_tag := st.core.name_tag
            surf_sense := (st.core.next_handle, [h, 0]) :: st.core.surf_sense
            faceting_tol := st.core.faceting_tol
            parent_child := st.core.parent_child ++ [(h, st.core.next_handle)]
            set_contents := (st.core.next_handle,
                st.core.getContents st.core.next_handle ++
                (List.range (mesh.facet_count t)).map
                  (fun j => st.core.next_handle + 1 + j)) ::
              st.core.set_contents
            extraction_log := st.core.extraction_log ++ [t] }
        known_surfaces := st.known_surfaces ++
          [(t, ⟨st.core.next_handle, h, 0⟩)]
        volume_sets := st.volume_sets
        group_sets := st.group_sets } := rfl

theorem process_surface_hit_eq (h : Nat) (st : LoopState) (t : Nat)
    (surface0 : MOABSurface) :
    process_surface_hit h st t surface0 =
      { core := { st.core with
          surf_sense := (surface0.handle, [surface0.forward_volume, h]) ::
            st.core.surf_sense
          parent_child := st.core.parent_child ++ [(h, surface0.handle)] }
        known_surfaces := regUpdate st.known_surfaces t
          { surface0 with reverse_volume := h }
        volume_sets := st.volume_sets
        group_sets := st.group_sets } := rfl

theorem process_volume_eq (mesh : MeshProvider) (names : List String)
    (st : LoopState) (i : Nat) (adj : List Nat) :
    process_volume mesh names st i adj =
      adj.foldl (process_surface mesh st.core.next_handle)
        { core :=
            { tag_defs := st.core.tag_defs
              next_handle := st.core.next_handle + 2
              entities := st.core.entities ++ [st.core.next_handle] ++
                [st.core.next_handle + 1]
              facet_entities := st.core.facet_entities
              global_id := (st.core.next_handle, i) :: st.core.global_id
              geom_dimension := (st.core.next_handle + 1, 4) ::
                (st.core.next_handle, 3) :: st.core.geom_dimension
              category := (st.core.next_handle + 1, "Group") ::
                (st.core.next_handle, "Volume") :: st.core.category
              name_tag := (st.core.next_handle + 1,
                "mat:" ++ names.getD i "") :: st.core.name_tag
              surf_sense := st.core.surf_sense
              faceting_tol := st.core.faceting_tol
              parent_child := st.core.parent_child
              set_contents := (st.core.next_handle + 1,
                  st.core.getContents (st.core.next_handle + 1) ++
                  [st.core.next_handle]) :: st.core.set_contents
              extraction_log := st.core.extraction_log }
          known_surfaces := st.known_surfaces
          volume_sets := st.volume_sets ++ [st.core.next_handle]
          group_sets := st.group_sets ++ [st.core.next_handle + 1] } := rfl

/-! ### The loop invariant

`done` is the list of `(volume entity handle, adjacency list)` pairs already
processed (the last pair's adjacency list may be the processed part of the
current volume's list).  The invariant ties the registry, the tag stores,
the extraction log and the ghost handle lists to `done`. -/

structure StInv (names : List String) (done : List (Nat × List Nat))
    (st : LoopState) : Prop where
  done_pos : ∀ p ∈ done, 0 < p.1
  next_pos : 1 ≤ st.core.next_handle
  vols_ghost : st.volume_sets = done.map Prod.fst
  keys_eq : st.known_surfaces.map Prod.fst = dedupFirst (catAdj done)
  log_eq : st.core.extraction_log = st.known_surfaces.map Prod.fst
  reg_lt : ∀ p ∈ st.known_surfaces,
      0 < p.2.handle ∧ p.2.handle < st.core.next_handle
  reg_inj : ∀ p ∈ st.known_surfaces, ∀ q ∈ st.known_surfaces,
      p.2.handle = q.2.handle → p.1 = q.1
  reg_none : ∀ s, s ∉ st.known_surfaces.map Prod.fst → encVols done s = []
  reg_some : ∀ p ∈ st.known_surfaces,
      encVols done p.1 ≠ [] ∧
      p.2.forward_volume = (encVols done p.1).headD 0 ∧
      p.2.reverse_volume =
        (if (encVols done p.1).length ≤ 1 then 0
         else (encVols done p.1).getLastD 0) ∧
      tagLookup st.core.surf_sense p.2.handle = some p.2.sense_data
  groups_len : st.group_sets.length = done.length
  groups_lt : ∀ g ∈ st.group_sets, 0 < g ∧ g < st.core.next_handle
  groups_nodup : st.group_sets.Nodup
  group_name : ∀ k, k < done.length →
      tagLookup st.core.name_tag (st.group_sets.getD k 0) =
        some ("mat:" ++ names.getD k "")
  group_members : ∀ k, k < done.length →
      st.core.getContents (st.group_sets.getD k 0) =
        [st.volume_sets.getD k 0]
  contents_lt : ∀ p ∈ st.core.set_contents, p.1 < st.core.next_handle
  ents_ms : (st.core.entities : Multiset Nat) =
      ↑st.volume_sets + ↑st.group_sets +
      ↑(st.known_surfaces.map (fun p => p.2.handle)) +
      ↑st.core.facet_entities

theorem catAdj_snoc (l : List (Nat × List Nat)) (h : Nat) (x : List Nat) :
    catAdj (l ++ [(h, x)]) = catAdj l ++ x := by
  rw [catAdj_append, catAdj_singleton]

theorem encVols_snoc_ne (done : List (Nat × List Nat)) (h : Nat)
    (part : List Nat) (t s : Nat) (hne : s ≠ t) :
    encVols (done ++ [(h, part ++ [t])]) s =
      encVols (done ++ [(h, part)]) s := by
  rw [encVols_append, encVols_append, encVols_single, encVols_single]
  congr 1
  by_cases hs : s ∈ part
  · rw [if_pos (by simp [hs]), if_pos hs]
  · rw [if_neg (by simp [hs, hne]), if_neg hs]

theorem encVols_snoc_in (done : List (Nat × List Nat)) (h : Nat)
    (part : List Nat) (t : Nat) :
    encVols (done ++ [(h, part ++ [t])]) t = encVols done t ++ [h] := by
  rw [encVols_append, encVols_single, if_pos (by simp)]

theorem encVols_snoc_out (done : List (Nat × List Nat)) (h : Nat)
    (part : List Nat) (t : Nat) (ht : t ∉ part) :
    encVols (done ++ [(h, part)]) t = encVols done t := by
  rw [encVols_append, encVols_single, if_neg ht, List.append_nil]

theorem map_fst_snoc_adj (done : List (Nat × List Nat)) (h : Nat)
    (part x : List Nat) :
    (done ++ [(h, x)]).map Prod.fst = (done ++ [(h, part)]).map Prod.fst := by
  simp

/-- Preservation of the invariant by one surface-loop iteration: `done` ends
with the current volume's handle and the already processed part of its
adjacency list, and `t` is the next surface tag of that list (not yet seen in
it, as adjacency lists are duplicate-free). -/
theorem process_surface_inv (mesh : MeshProvider) (names : List String)
    (done : List (Nat × List Nat)) (h : Nat) (part : List Nat) (t : Nat)
    (st : LoopState) (inv : StInv names (done ++ [(h, part)]) st)
    (ht : t ∉ part) :
    StInv names (done ++ [(h, part ++ [t])]) (process_surface mesh h st t) := by
  have hpos : 0 < h := inv.done_pos (h, part) (by simp)
  cases hm : regLookup st.known_surfaces t with
  | none =>
    have hps : process_surface mesh h st t = process_surface_new mesh h st t := by
      unfold process_surface
      rw [hm]
    have hkeys : t ∉ st.known_surfaces.map Prod.fst :=
      (regLookup_eq_none_iff _ _).1 hm
    have hnil : encVols done t = [] := by
      have h0 := inv.reg_none t hkeys
      rw [encVols_snoc_out done h part t ht] at h0
      exact h0
    have henc1 : encVols (done ++ [(h, part ++ [t])]) t = [h] := by
      rw [encVols_snoc_in, hnil]
      rfl
    have hflat : t ∉ catAdj (done ++ [(h, part)]) := fun hc =>
      hkeys (by rw [inv.keys_eq]; exact mem_dedupFirst.2 hc)
    rw [hps, process_surface_new_eq]
    refine
      { done_pos := ?_, next_pos := ?_, vols_ghost := ?_, keys_eq := ?_,
        log_eq := ?_, reg_lt := ?_, reg_inj := ?_, reg_none := ?_,
        reg_some := ?_, groups_len := ?_, groups_lt := ?_, groups_nodup := ?_,
        group_name := ?_, group_members := ?_, contents_lt := ?_,
        ents_ms := ?_ }
    · intro p hp
      rcases List.mem_append.1 hp with hd | hs
      · exact inv.done_pos p (List.mem_append_left _ hd)
      · have : p = (h, part ++ [t]) := by simpa using hs
        rw [this]
        exact hpos
    · have := inv.next_pos
      dsimp only
      omega
    · dsimp only
      rw [inv.vols_ghost, map_fst_snoc_adj done h (part ++ [t]) part]
    · dsimp only
      rw [List.map_append, inv.keys_eq, catAdj_snoc, catAdj_snoc,
        ← List.append_assoc,
        dedupFirst_concat, if_neg (by rw [← catAdj_snoc]; exact hflat)]
      rfl
    · dsimp only
      rw [List.map_append, inv.log_eq]
      rfl
    · intro p hp
      rcases List.mem_append.1 hp with hold | hnew
      · obtain ⟨h1, h2⟩ := inv.reg_lt p hold
        exact ⟨h1, by dsimp only; omega⟩
      · have : p = (t, ⟨st.core.next_handle, h, 0⟩) := by simpa using hnew
        rw [this]
        have := inv.next_pos
        refine ⟨?_, ?_⟩
        · show 0 < st.core.next_handle
          omega
        · show st.core.next_handle <
            st.core.next_handle + 1 + mesh.facet_count t
          omega
    · intro p hp q hq he
      rcases List.mem_append.1 hp with hpo | hpn <;>
        rcases List.mem_append.1 hq with hqo | hqn
      · exact inv.reg_inj p hpo q hqo he
      · have hq' : q = (t, ⟨st.core.next_handle, h, 0⟩) := by simpa using hqn
        have hlt := (inv.reg_lt p hpo).2
        rw [hq'] at he
        have he' : p.2.handle = st.core.next_handle := he
        exact absurd he' (by omega)
      · have hp' : p = (t, ⟨st.core.next_handle, h, 0⟩) := by simpa using hpn
        have hlt := (inv.reg_lt q hqo).2
        rw [hp'] at he
        have he' : st.core.next_handle = q.2.handle := he
        exact absurd he'.symm (by omega)
      · have hp' : p = (t, ⟨st.core.next_handle, h, 0⟩) := by simpa using hpn
        have hq' : q = (t, ⟨st.core.next_handle, h, 0⟩) := by simpa using hqn
        rw [hp', hq']
    · intro s hs
      have hs' : s ∉ st.known_surfaces.map Prod.fst ∧ s ≠ t := by
        rw [List.map_append] at hs
        simp only [List.mem_append] at hs
        push_neg at hs
        exact ⟨hs.1, by simpa using hs.2⟩
      rw [encVols_snoc_ne done h part t s hs'.2]
      exact inv.reg_none s hs'.1
    · intro p hp
      rcases List.mem_append.1 hp with hold | hnew
      · have hne : p.1 ≠ t := fun he =>
          hkeys (he ▸ List.mem_map.2 ⟨p, hold, rfl⟩)
        have henc := encVols_snoc_ne done h part t p.1 hne
        obtain ⟨e1, e2, e3, e4⟩ := inv.reg_some p hold
        refine ⟨by rw [henc]; exact e1, by rw [henc]; exact e2,
          by rw [henc]; exact e3, ?_⟩
        have hlt := (inv.reg_lt p hold).2
        dsimp only
        rw [tagLookup_cons_ne _ _ _ _ (by omega)]
        exact e4
      · have hp' : p = (t, ⟨st.core.next_handle, h, 0⟩) := by simpa using hnew
        rw [hp']
        refine ⟨by rw [henc1]; simp, by rw [henc1]; rfl,
          by rw [henc1]; rfl, ?_⟩
        dsimp only
        rw [tagLookup_cons_self]
        rfl
    · dsimp only
      rw [inv.groups_len]
      simp
    · intro g hg
      obtain ⟨h1, h2⟩ := inv.groups_lt g hg
      exact ⟨h1, by dsimp only; omega⟩
    · exact inv.groups_nodup
    · intro k hk
      have hk' : k < (done ++ [(h, part)]).length := by
        simpa using hk
      exact inv.group_name k hk'
    · intro k hk
      have hk' : k < (done ++ [(h, part)]).length := by
        simpa using hk
      have hkg : k < st.group_sets.length := by
        rw [inv.groups_len]
        exact hk'
      have hglt := (inv.groups_lt _ (getD_mem_of_lt _ k hkg)).2
      have hstep : Core.getContents
          { tag_defs := st.core.tag_defs
            next_handle := st.core.next_handle + 1 + mesh.facet_count t
            entities := st.core.entities ++ [st.core.next_handle] ++
              (List.range (mesh.facet_count t)).map
                (fun j => st.core.next_handle + 1 + j)
            facet_entities := st.core.facet_entities ++
              (List.range (mesh.facet_count t)).map
                (fun j => st.core.next_handle + 1 + j)
            global_id := (st.core.next_handle, t) :: st.core.global_id
            geom_dimension := (st.core.next_handle, 2) :: st.core.geom_dimension
            category := (st.core.next_handle, "Surface") :: st.core.category
            name_tag := st.core.name_tag
            surf_sense := (st.core.next_handle, [h, 0]) :: st.core.surf_sense
            faceting_tol := st.core.faceting_tol
            parent_child := st.core.parent_child ++ [(h, st.core.next_handle)]
            set_contents := (st.core.next_handle,
                st.core.getContents st.core.next_handle ++
                (List.range (mesh.facet_count t)).map
                  (fun j => st.core.next_handle + 1 + j)) ::
              st.core.set_contents
            extraction_log := st.core.extraction_log ++ [t] }
          (st.group_sets.getD k 0) =
          st.core.getContents (st.group_sets.getD k 0) := by
        unfold Core.getContents
        rw [tagLookup_cons_ne _ _ _ _ (by omega)]
      rw [hstep]
      exact inv.group_members k hk'
    · intro p hp
      rcases List.mem_cons.1 hp with hnew | hold
      · rw [hnew]
        dsimp only
        omega
      · have := inv.contents_lt p hold
        dsimp only
        omega
    · dsimp only
      have hmap : (List.map (fun p => p.2.handle)
          [(t, (⟨st.core.next_handle, h, 0⟩ : MOABSurface))])
          = [st.core.next_handle] := rfl
      rw [List.map_append, hmap]
      rw [← Multiset.coe_add, ← Multiset.coe_add, ← Multiset.coe_add,
        ← Multiset.coe_add]
      rw [inv.ents_ms]
      abel
  | some surface0 =>
    have hps : process_surface mesh h st t
        = process_surface_hit h st t surface0 := by
      unfold process_surface
      rw [hm]
    have hmem : (t, surface0) ∈ st.known_surfaces := regLookup_mem hm
    have hkeys : t ∈ st.known_surfaces.map Prod.fst :=
      List.mem_map.2 ⟨(t, surface0), hmem, rfl⟩
    have hknd : (st.known_surfaces.map Prod.fst).Nodup := by
      rw [inv.keys_eq]
      exact dedupFirst_nodup _
    have huniq : ∀ p ∈ st.known_surfaces, p.1 = t → p.2 = surface0 := by
      intro p hp hpt
      have : regLookup st.known_surfaces t = some p.2 := by
        apply regLookup_of_mem_nodup hknd
        rw [← hpt]
        exact hp
      rw [hm] at this
      injection this with this
      exact this.symm
    obtain ⟨e1, e2, e3, e4⟩ := inv.reg_some (t, surface0) hmem
    have henc0 : encVols (done ++ [(h, part)]) t = encVols done t :=
      encVols_snoc_out done h part t ht
    have henc1 : encVols (done ++ [(h, part ++ [t])]) t
        = encVols done t ++ [h] := encVols_snoc_in done h part t
    have hone : encVols done t ≠ [] := by
      rw [← henc0]
      exact e1
    have hflat : t ∈ catAdj (done ++ [(h, part)]) := by
      have : t ∈ dedupFirst (catAdj (done ++ [(h, part)])) := by
        rw [← inv.keys_eq]
        exact hkeys
      exact mem_dedupFirst.1 this
    rw [hps, process_surface_hit_eq]
    refine
      { done_pos := ?_, next_pos := ?_, vols_ghost := ?_, keys_eq := ?_,
        log_eq := ?_, reg_lt := ?_, reg_inj := ?_, reg_none := ?_,
        reg_some := ?_, groups_len := ?_, groups_lt := ?_, groups_nodup := ?_,
        group_name := ?_, group_members := ?_, contents_lt := ?_,
        ents_ms := ?_ }
    · intro p hp
      rcases List.mem_append.1 hp with hd | hs
      · exact inv.done_pos p (List.mem_append_left _ hd)
      · have : p = (h, part ++ [t]) := by simpa using hs
        rw [this]
        exact hpos
    · exact inv.next_pos
    · dsimp only
      rw [inv.vols_ghost, map_fst_snoc_adj done h (part ++ [t]) part]
    · dsimp only
      rw [regUpdate_map_fst, inv.keys_eq, catAdj_snoc, catAdj_snoc,
        ← List.append_assoc,
        dedupFirst_concat, if_pos (by rw [← catAdj_snoc]; exact hflat)]
    · dsimp only
      rw [regUpdate_map_fst, inv.log_eq]
    · intro p hp
      rcases mem_regUpdate hp with ⟨hold, _⟩ | hnew
      · exact inv.reg_lt p hold
      · rw [hnew]
        exact inv.reg_lt (t, surface0) hmem
    · intro p hp q hq he
      rcases mem_regUpdate hp with ⟨hpo, hpt⟩ | hpn <;>
        rcases mem_regUpdate hq with ⟨hqo, hqt⟩ | hqn
      · exact inv.reg_inj p hpo q hqo he
      · rw [hqn] at he ⊢
        exact inv.reg_inj p hpo (t, surface0) hmem he
      · rw [hpn] at he ⊢
        exact inv.reg_inj (t, surface0) hmem q hqo he
      · rw [hpn, hqn]
    · intro s hs
      rw [regUpdate_map_fst] at hs
      have hst : s ≠ t := fun he => hs (he ▸ hkeys)
      rw [encVols_snoc_ne done h part t s hst]
      exact inv.reg_none s hs
    · intro p hp
      rcases mem_regUpdate hp with ⟨hold, hpt⟩ | hnew
      · have henc := encVols_snoc_ne done h part t p.1 hpt
        obtain ⟨f1, f2, f3, f4⟩ := inv.reg_some p hold
        refine ⟨by rw [henc]; exact f1, by rw [henc]; exact f2,
          by rw [henc]; exact f3, ?_⟩
        have hneh : p.2.handle ≠ surface0.handle := fun he =>
          hpt (inv.reg_inj p hold (t, surface0) hmem he)
        dsimp only
        rw [tagLookup_cons_ne _ _ _ _ hneh]
        exact f4
      · rw [hnew]
        dsimp only
        have hlen1 : 1 ≤ (encVols done t).length := by
          cases hel : encVols done t with
          | nil => exact absurd hel hone
          | cons a l => simp
        refine ⟨?_, ?_, ?_, ?_⟩
        · rw [henc1]
          simp
        · rw [henc1, headD_append_ne_nil _ _ hone]
          rw [e2, henc0]
        · rw [henc1]
          rw [if_neg (by rw [List.length_append, List.length_singleton]; omega)]
          rw [List.getLastD_concat]
        · rw [tagLookup_cons_self]
          rfl
    · dsimp only
      rw [inv.groups_len]
      simp
    · exact fun g hg => inv.groups_lt g hg
    · exact inv.groups_nodup
    · intro k hk
      exact inv.group_name k (by simpa using hk)
    · intro k hk
      exact inv.group_members k (by simpa using hk)
    · exact inv.contents_lt
    · dsimp only
      rw [regUpdate_map_handle _ _ _
        (fun p hp hpt => by rw [huniq p hp hpt])]
      exact inv.ents_ms

theorem tagLookup_none_of_keys_lt {α : Type} (store : List (Nat × α)) (m : Nat)
    (hlt : ∀ p ∈ store, p.1 < m) : tagLookup store m = none := by
  unfold tagLookup
  rw [List.find?_eq_none.2]
  · rfl
  · intro p hp
    simpa using Nat.ne_of_lt (hlt p hp)

theorem encVols_snoc_nil (done : List (Nat × List Nat)) (h s : Nat) :
    encVols (done ++ [(h, [])]) s = encVols done s := by
  rw [encVols_append, encVols_single, if_neg (List.not_mem_nil s),
    List.append_nil]

/-- Preservation of the invariant by the surface fold over the unprocessed
remainder of the current volume's adjacency list. -/
theorem fold_surfaces_inv (mesh : MeshProvider) (names : List String)
    (done : List (Nat × List Nat)) (h : Nat) :
    ∀ (rest part : List Nat) (st : LoopState),
      StInv names (done ++ [(h, part)]) st →
      (part ++ rest).Nodup →
      StInv names (done ++ [(h, part ++ rest)])
        (rest.foldl (process_surface mesh h) st) := by
  intro rest
  induction rest with
  | nil =>
    intro part st inv _
    simpa using inv
  | cons t rest ih =>
    intro part st inv hnd
    have ht : t ∉ part := by
      rw [List.nodup_append] at hnd
      exact fun hm => hnd.2.2 hm (by simp)
    have step := process_surface_inv mesh names done h part t st inv ht
    have hnd' : ((part ++ [t]) ++ rest).Nodup := by
      rw [← List.append_cons]
      exact hnd
    have key : part ++ t :: rest = (part ++ [t]) ++ rest :=
      List.append_cons part t rest
    rw [List.foldl_cons, key]
    exact ih (part ++ [t]) (process_surface mesh h st t) step hnd'

/-- Preservation of the invariant by one volume iteration: the new pair is
the freshly created volume entity handle with this volume's adjacency
list. -/
theorem process_volume_inv (mesh : MeshProvider) (names : List String)
    (done : List (Nat × List Nat)) (st : LoopState) (adj : List Nat)
    (inv : StInv names done st) (hadj : adj.Nodup) :
    StInv names (done ++ [(st.core.next_handle, adj)])
      (process_volume mesh names st done.length adj) := by
  have hnp := inv.next_pos
  have hvlen : st.volume_sets.length = done.length := by
    rw [inv.vols_ghost, List.length_map]
  rw [process_volume_eq]
  have inv1 : StInv names (done ++ [(st.core.next_handle, [])])
      { core :=
          { tag_defs := st.core.tag_defs
            next_handle := st.core.next_handle + 2
            entities := st.core.entities ++ [st.core.next_handle] ++
              [st.core.next_handle + 1]
            facet_entities := st.core.facet_entities
            global_id := (st.core.next_handle, done.length) :: st.core.global_id
            geom_dimension := (st.core.next_handle + 1, 4) ::
              (st.core.next_handle, 3) :: st.core.geom_dimension
            category := (st.core.next_handle + 1, "Group") ::
              (st.core.next_handle, "Volume") :: st.core.category
            name_tag := (st.core.next_handle + 1,
              "mat:" ++ names.getD done.length "") :: st.core.name_tag
            surf_sense := st.core.surf_sense
            faceting_tol := st.core.faceting_tol
            parent_child := st.core.parent_child
            set_contents := (st.core.next_handle + 1,
                st.core.getContents (st.core.next_handle + 1) ++
                [st.core.next_handle]) :: st.core.set_contents
            extraction_log := st.core.extraction_log }
        known_surfaces := st.known_surfaces
        volume_sets := st.volume_sets ++ [st.core.next_handle]
        group_sets := st.group_sets ++ [st.core.next_handle + 1] } := by
    refine
      { done_pos := ?_, next_pos := ?_, vols_ghost := ?_, keys_eq := ?_,
        log_eq := ?_, reg_lt := ?_, reg_inj := ?_, reg_none := ?_,
        reg_some := ?_, groups_len := ?_, groups_lt := ?_, groups_nodup := ?_,
        group_name := ?_, group_members := ?_, contents_lt := ?_,
        ents_ms := ?_ }
    · intro p hp
      rcases List.mem_append.1 hp with hd | hs
      · exact inv.done_pos p hd
      · have : p = (st.core.next_handle, []) := by simpa using hs
        rw [this]
        exact hnp
    · dsimp only
      omega
    · dsimp only
      rw [inv.vols_ghost, List.map_append]
      rfl
    · dsimp only
      rw [inv.keys_eq, catAdj_snoc, List.append_nil]
    · exact inv.log_eq
    · intro p hp
      obtain ⟨h1, h2⟩ := inv.reg_lt p hp
      exact ⟨h1, by dsimp only; omega⟩
    · exact inv.reg_inj
    · intro s hs
      rw [encVols_snoc_nil]
      exact inv.reg_none s hs
    · intro p hp
      obtain ⟨e1, e2, e3, e4⟩ := inv.reg_some p hp
      rw [encVols_snoc_nil]
      exact ⟨e1, e2, e3, e4⟩
    · dsimp only
      rw [List.length_append, List.length_append, inv.groups_len]
      rfl
    · intro g hg
      rcases List.mem_append.1 hg with hold | hnew
      · obtain ⟨h1, h2⟩ := inv.groups_lt g hold
        exact ⟨h1, by dsimp only; omega⟩
      · have : g = st.core.next_handle + 1 := by simpa using hnew
        rw [this]
        exact ⟨by omega, by dsimp only; omega⟩
    · rw [List.nodup_append]
      refine ⟨inv.groups_nodup, List.nodup_singleton _, ?_⟩
      intro a ha hb
      have h1 := (inv.groups_lt a ha).2
      have h2 : a = st.core.next_handle + 1 := by simpa using hb
      omega
    · intro k hk
      have hk2 : k < done.length + 1 := by simpa using hk
      rcases Nat.lt_or_ge k done.length with hklt | hkge
      · have hkg : k < st.group_sets.length := by rw [inv.groups_len]; exact hklt
        have hgget : (st.group_sets ++ [st.core.next_handle + 1]).getD k 0
            = st.group_sets.getD k 0 := List.getD_append _ _ _ _ hkg
        dsimp only
        rw [hgget]
        have hglt := (inv.groups_lt _ (getD_mem_of_lt _ k hkg)).2
        rw [tagLookup_cons_ne _ _ _ _ (by omega)]
        exact inv.group_name k hklt
      · have hkeq : k = done.length := by omega
        have hgl : st.group_sets.length = k := by rw [inv.groups_len, hkeq]
        have hgget : (st.group_sets ++ [st.core.next_handle + 1]).getD k 0
            = st.core.next_handle + 1 := by
          rw [← hgl]
          exact getD_concat_length _ _ _
        dsimp only
        rw [hgget, tagLookup_cons_self, hkeq]
    · intro k hk
      have hk2 : k < done.length + 1 := by simpa using hk
      rcases Nat.lt_or_ge k done.length with hklt | hkge
      · have hkg : k < st.group_sets.length := by rw [inv.groups_len]; exact hklt
        have hkv : k < st.volume_sets.length := by rw [hvlen]; exact hklt
        have hgget : (st.group_sets ++ [st.core.next_handle + 1]).getD k 0
            = st.group_sets.getD k 0 := List.getD_append _ _ _ _ hkg
        have hvget : (st.volume_sets ++ [st.core.next_handle]).getD k 0
            = st.volume_sets.getD k 0 := List.getD_append _ _ _ _ hkv
        have hglt := (inv.groups_lt _ (getD_mem_of_lt _ k hkg)).2
        show Core.getContents _ _ = _
        unfold Core.getContents
        dsimp only
        rw [hgget, hvget, tagLookup_cons_ne _ _ _ _ (by omega)]
        exact inv.group_members k hklt
      · have hkeq : k = done.length := by omega
        have hgl : st.group_sets.length = k := by rw [inv.groups_len, hkeq]
        have hvl : st.volume_sets.length = k := by rw [hvlen, hkeq]
        have hgget : (st.group_sets ++ [st.core.next_handle + 1]).getD k 0
            = st.core.next_handle + 1 := by
          rw [← hgl]
          exact getD_concat_length _ _ _
        have hvget : (st.volume_sets ++ [st.core.next_handle]).getD k 0
            = st.core.next_handle := by
          rw [← hvl]
          exact getD_concat_length _ _ _
        show Core.getContents _ _ = _
        unfold Core.getContents
        dsimp only
        rw [hgget, hvget, tagLookup_cons_self]
        rw [tagLookup_none_of_keys_lt st.core.set_contents
          (st.core.next_handle + 1)
          (fun p hp => by have := inv.contents_lt p hp; omega)]
        rfl
    · intro p hp
      rcases List.mem_cons.1 hp with hnew | hold
      · rw [hnew]
        dsimp only
        omega
      · have := inv.contents_lt p hold
        dsimp only
        omega
    · dsimp only
      rw [← Multiset.coe_add, ← Multiset.coe_add, ← Multiset.coe_add,
        ← Multiset.coe_add]
      rw [inv.ents_ms]
      abel
  have := fold_surfaces_inv mesh names done st.core.next_handle adj [] _ inv1
    (by simpa using hadj)
  simpa using this

/-- Preservation of the invariant by the whole volume loop: there is a list
of freshly allocated volume handles, one per volume, extending `done`. -/
theorem process_volumes_inv (mesh : MeshProvider) (names : List String) :
    ∀ (vols : List (List Nat)) (done : List (Nat × List Nat)) (st : LoopState),
      StInv names done st →
      (∀ adj ∈ vols, adj.Nodup) →
      ∃ hs : List Nat, hs.length = vols.length ∧
        StInv names (done ++ hs.zip vols)
          (process_volumes mesh names done.length vols st) := by
  intro vols
  induction vols with
  | nil =>
    intro done st inv _
    exact ⟨[], rfl, by simpa using inv⟩
  | cons adj rest ih =>
    intro done st inv hnd
    have step := process_volume_inv mesh names done st adj inv (hnd adj (by simp))
    obtain ⟨hs, hlen, hinv⟩ := ih (done ++ [(st.core.next_handle, adj)])
      (process_volume mesh names st done.length adj) step
      (fun a ha => hnd a (by simp [ha]))
    refine ⟨st.core.next_handle :: hs, by simp [hlen], ?_⟩
    have goal_eq : done ++ (st.core.next_handle :: hs).zip (adj :: rest)
        = (done ++ [(st.core.next_handle, adj)]) ++ hs.zip rest := by
      rw [List.zip_cons_cons]
      simp
    rw [goal_eq]
    have hlen1 : (done ++ [(st.core.next_handle, adj)]).length
        = done.length + 1 := by simp
    rw [hlen1] at hinv
    exact hinv

/-! ### From `make_from_mesh` to the invariant -/

theorem finalize_known (st : LoopState) :
    (finalize st).known_surfaces = st.known_surfaces := rfl

theorem finalize_volume_sets (st : LoopState) :
    (finalize st).volume_sets = st.volume_sets := rfl

theorem finalize_group_sets (st : LoopState) :
    (finalize st).group_sets = st.group_sets := rfl

theorem finalize_file_set (st : LoopState) :
    (finalize st).file_set = st.core.next_handle := rfl

theorem finalize_surf_sense (st : LoopState) :
    (finalize st).core.surf_sense = st.core.surf_sense := rfl

theorem finalize_name_tag (st : LoopState) :
    (finalize st).core.name_tag = st.core.name_tag := rfl

theorem finalize_extraction_log (st : LoopState) :
    (finalize st).core.extraction_log = st.core.extraction_log := rfl

theorem finalize_facet_entities (st : LoopState) :
    (finalize st).core.facet_entities = st.core.facet_entities := rfl

theorem finalize_entities (st : LoopState) :
    (finalize st).core.entities
      = st.core.entities ++ [st.core.next_handle] := rfl

theorem finalize_faceting_tol (st : LoopState) :
    (finalize st).core.faceting_tol
      = (st.core.next_handle, faceting_tol_value) :: st.core.faceting_tol := rfl

theorem finalize_set_contents (st : LoopState) :
    (finalize st).core.set_contents
      = (st.core.next_handle,
          st.core.getContents st.core.next_handle ++ st.core.entities) ::
        st.core.set_contents := rfl

/-- On matching lengths, `make_from_mesh` runs the volume loop from the
schema-initialized core and finalizes. -/
theorem make_from_mesh_ok_eq (mesh : MeshProvider) (names : List String)
    (hlen : mesh.volumes.length = names.length) :
    make_from_mesh mesh names = .ok (finalize (process_volumes mesh names 0
      mesh.volumes (initialState { Core.init with tag_defs := fullSchemaDefs }))) := by
  show (if mesh.volumes.length ≠ names.length then
      Except.error ("Number of volumes does not match number of material names",
        ({ Core.init with tag_defs := fullSchemaDefs } : Core))
    else Except.ok (finalize (process_volumes mesh names 0 mesh.volumes
      (initialState { Core.init with tag_defs := fullSchemaDefs })))) = _
  rw [if_neg (show ¬(mesh.volumes.length ≠ names.length) by omega)]

/-- On a length mismatch, `make_from_mesh` raises with only the schema
created. -/
theorem make_from_mesh_error_eq (mesh : MeshProvider) (names : List String)
    (hlen : mesh.volumes.length ≠ names.length) :
    make_from_mesh mesh names =
      .error ("Number of volumes does not match number of material names",
        { Core.init with tag_defs := fullSchemaDefs }) := by
  show (if mesh.volumes.length ≠ names.length then
      Except.error ("Number of volumes does not match number of material names",
        ({ Core.init with tag_defs := fullSchemaDefs } : Core))
    else Except.ok (finalize (process_volumes mesh names 0 mesh.volumes
      (initialState { Core.init with tag_defs := fullSchemaDefs })))) = _
  rw [if_pos hlen]

/-- A successful run implies the length precondition. -/
theorem make_from_mesh_ok_len (mesh : MeshProvider) (names : List String)
    (r : BuildResult) (hr : make_from_mesh mesh names = .ok r) :
    mesh.volumes.length = names.length := by
  by_cases h : mesh.volumes.length = names.length
  · exact h
  · rw [make_from_mesh_error_eq mesh names h] at hr
    exact absurd hr (by simp)

/-- The invariant holds of the initial loop state. -/
theorem initial_inv (names : List String) :
    StInv names [] (initialState { Core.init with tag_defs := fullSchemaDefs }) := by
  refine
    { done_pos := ?_, next_pos := ?_, vols_ghost := ?_, keys_eq := ?_,
      log_eq := ?_, reg_lt := ?_, reg_inj := ?_, reg_none := ?_,
      reg_some := ?_, groups_len := ?_, groups_lt := ?_, groups_nodup := ?_,
      group_name := ?_, group_members := ?_, contents_lt := ?_,
      ents_ms := ?_ }
  · intro p hp
    exact absurd hp (List.not_mem_nil p)
  · exact Nat.le_refl 1
  · rfl
  · rfl
  · rfl
  · intro p hp
    exact absurd hp (List.not_mem_nil p)
  · intro p hp
    exact absurd hp (List.not_mem_nil p)
  · intro s _
    rfl
  · intro p hp
    exact absurd hp (List.not_mem_nil p)
  · rfl
  · intro g hg
    exact absurd hg (List.not_mem_nil g)
  · exact List.nodup_nil
  · intro k hk
    exact absurd hk (Nat.not_lt_zero k)
  · intro k hk
    exact absurd hk (Nat.not_lt_zero k)
  · intro p hp
    exact absurd hp (List.not_mem_nil p)
  · rfl

/-- Master lemma: a successful run with duplicate-free adjacency lists
produces a state satisfying the invariant at
`done = volume handles zipped with adjacency lists`. -/
theorem build_inv (mesh : MeshProvider) (names : List String)
    (r : BuildResult) (hr : make_from_mesh mesh names = .ok r)
    (hnd : ∀ adj ∈ mesh.volumes, adj.Nodup) :
    ∃ st : LoopState, r = finalize st ∧
      st.volume_sets.length = mesh.volumes.length ∧
      StInv names (st.volume_sets.zip mesh.volumes) st := by
  have hlen := make_from_mesh_ok_len mesh names r hr
  obtain ⟨hs, hlen2, hinv⟩ := process_volumes_inv mesh names mesh.volumes []
    (initialState { Core.init with tag_defs := fullSchemaDefs })
    (initial_inv names) hnd
  simp only [List.length_nil, List.nil_append] at hinv
  set st := process_volumes mesh names 0 mesh.volumes
    (initialState { Core.init with tag_defs := fullSchemaDefs }) with hst
  have hvs : st.volume_sets = hs := by
    have := hinv.vols_ghost
    rw [this, List.map_fst_zip hs mesh.volumes (le_of_eq hlen2)]
  have hre : r = finalize st := by
    have h2 := make_from_mesh_ok_eq mesh names hlen
    rw [hr] at h2
    exact Except.ok.inj h2
  refine ⟨st, hre, by rw [hvs, hlen2], ?_⟩
  rw [hvs]
  exact hinv

/-- Shared consequence of the invariant at the end of a successful run: the
final state of the registry entry and `surf_sense` tag of any encountered
surface id, expressed through the volume indices that contain it. -/
theorem final_surface_state (mesh : MeshProvider) (names : List String)
    (r : BuildResult) (s : Nat)
    (hnd : ∀ adj ∈ mesh.volumes, adj.Nodup)
    (hr : make_from_mesh mesh names = .ok r)
    (hne : volumesContaining mesh s ≠ []) :
    ∃ surf, regLookup r.known_surfaces s = some surf ∧
      surf.forward_volume =
        r.volume_sets.getD ((volumesContaining mesh s).headD 0) 0 ∧
      surf.reverse_volume =
        (if (volumesContaining mesh s).length ≤ 1 then 0
         else r.volume_sets.getD ((volumesContaining mesh s).getLastD 0) 0) ∧
      tagLookup r.core.surf_sense surf.handle =
        some [surf.forward_volume, surf.reverse_volume] ∧
      (∀ i ∈ volumesContaining mesh s, 0 < r.volume_sets.getD i 0) ∧
      (r.known_surfaces.map Prod.fst).Nodup ∧
      s ∈ r.known_surfaces.map Prod.fst := by
  obtain ⟨st, hre, hvlen, hinv⟩ := build_inv mesh names r hr hnd
  have henc : encVols (st.volume_sets.zip mesh.volumes) s =
      (volumesContaining mesh s).map (fun i => st.volume_sets.getD i 0) :=
    encVols_zip_eq_map st.volume_sets mesh.volumes s hvlen
  have hvs_r : r.volume_sets = st.volume_sets := by rw [hre]; rfl
  have hks_r : r.known_surfaces = st.known_surfaces := by rw [hre]; rfl
  have hss_r : r.core.surf_sense = st.core.surf_sense := by rw [hre]; rfl
  have hene : encVols (st.volume_sets.zip mesh.volumes) s ≠ [] := by
    rw [henc]
    intro hc
    exact hne (List.map_eq_nil_iff.1 hc)
  have hknd : (st.known_surfaces.map Prod.fst).Nodup := by
    rw [hinv.keys_eq]
    exact dedupFirst_nodup _
  have hkmem : s ∈ st.known_surfaces.map Prod.fst := by
    by_contra hc
    exact hene (hinv.reg_none s hc)
  obtain ⟨surf, hsurf⟩ : ∃ surf, regLookup st.known_surfaces s = some surf := by
    cases hl : regLookup st.known_surfaces s with
    | none => exact absurd ((regLookup_eq_none_iff _ _).1 hl) (by simpa using hkmem)
    | some surf => exact ⟨surf, rfl⟩
  obtain ⟨e1, e2, e3, e4⟩ := hinv.reg_some (s, surf) (regLookup_mem hsurf)
  refine ⟨surf, by rw [hks_r]; exact hsurf, ?_, ?_, ?_, ?_, ?_, ?_⟩
  · rw [hvs_r, e2, henc,
      headD_map_ne_nil (fun i => st.volume_sets.getD i 0) _ hne 0 0]
  · rw [hvs_r, e3, henc]
    by_cases hlen1 : (volumesContaining mesh s).length ≤ 1
    · rw [if_pos (by rw [List.length_map]; exact hlen1), if_pos hlen1]
    · rw [if_neg (by rw [List.length_map]; exact hlen1), if_neg hlen1,
        getLastD_map_ne_nil (fun i => st.volume_sets.getD i 0) _ hne 0 0]
  · rw [hss_r]
    exact e4
  · intro i hi
    have hmemv : st.volume_sets.getD i 0 ∈
        encVols (st.volume_sets.zip mesh.volumes) s := by
      rw [henc]
      exact List.mem_map.2 ⟨i, hi, rfl⟩
    obtain ⟨p, hp, hpe, _⟩ := mem_encVols hmemv
    rw [hvs_r, ← hpe]
    exact hinv.done_pos p hp
  · rw [hks_r]
    exact hknd
  · rw [hks_r]
    exact hkmem

/-- Claim C1: for every interior surface (a surface id in the adjacency sets
of exactly two volumes, visited at indices `i` then `j`), the finally written
`surf_sense` tag on that surface's entity is the ordered pair of the entity
handles of the first- and second-visited adjacent volumes, both nonzero. -/
theorem claim_C1_interior_surf_sense (mesh : MeshProvider)
    (names : List String) (r : BuildResult) (s i j : Nat)
    (hnd : ∀ adj ∈ mesh.volumes, adj.Nodup)
    (hr : make_from_mesh mesh names = .ok r)
    (hij : volumesContaining mesh s = [i, j]) :
    ∃ surf, regLookup r.known_surfaces s = some surf ∧
      tagLookup r.core.surf_sense surf.handle =
        some [r.volume_sets.getD i 0, r.volume_sets.getD j 0] ∧
      r.volume_sets.getD i 0 ≠ 0 ∧ r.volume_sets.getD j 0 ≠ 0 := by
  obtain ⟨surf, h1, h2, h3, h4, h5, _, _⟩ :=
    final_surface_state mesh names r s hnd hr (by rw [hij]; simp)
  rw [hij] at h2 h3 h5
  refine ⟨surf, h1, ?_, ?_, ?_⟩
  · rw [h4, h2, h3]
    simp
  · have := h5 i (by simp)
    omega
  · have := h5 j (by simp)
    omega

/-- Claim C2: for every boundary surface (a surface id in the adjacency set
of exactly one volume, at index `i`), the final `surf_sense` tag has first
slot the adjacent volume's entity handle and second slot the 0 sentinel. -/
theorem claim_C2_boundary_surf_sense (mesh : MeshProvider)
    (names : List String) (r : BuildResult) (s i : Nat)
    (hnd : ∀ adj ∈ mesh.volumes, adj.Nodup)
    (hr : make_from_mesh mesh names = .ok r)
    (hi : volumesContaining mesh s = [i]) :
    ∃ surf, regLookup r.known_surfaces s = some surf ∧
      tagLookup r.core.surf_sense surf.handle =
        some [r.volume_sets.getD i 0, 0] ∧
      r.volume_sets.getD i 0 ≠ 0 := by
  obtain ⟨surf, h1, h2, h3, h4, h5, _, _⟩ :=
    final_surface_state mesh names r s hnd hr (by rw [hi]; simp)
  rw [hi] at h2 h3 h5
  refine ⟨surf, h1, ?_, ?_⟩
  · rw [h4, h2, h3]
    simp
  · have := h5 i (by simp)
    omega

/-- Claim C8: a surface id encountered by three or more volumes raises no
error; its registry entry keeps the handle created at first encounter (it is
the unique entry for that id), keeps `forward_volume` equal to the
first-visited volume's entity, and its `reverse_volume` and `surf_sense` are
overwritten to the latest (last-visited) encountering volume's entity. -/
theorem claim_C8_third_encounter (mesh : MeshProvider) (names : List String)
    (s : Nat) (hnd : ∀ adj ∈ mesh.volumes, adj.Nodup)
    (hlen : mesh.volumes.length = names.length)
    (h3 : 3 ≤ (volumesContaining mesh s).length) :
    ∃ r, make_from_mesh mesh names = .ok r ∧
      ∃ surf, regLookup r.known_surfaces s = some surf ∧
        surf.forward_volume =
          r.volume_sets.getD ((volumesContaining mesh s).headD 0) 0 ∧
        surf.reverse_volume =
          r.volume_sets.getD ((volumesContaining mesh s).getLastD 0) 0 ∧
        tagLookup r.core.surf_sense surf.handle =
          some [surf.forward_volume, surf.reverse_volume] ∧
        (r.known_surfaces.map Prod.fst).count s = 1 := by
  refine ⟨resultOf (make_from_mesh mesh names), ?_, ?_⟩
  · rw [make_from_mesh_ok_eq mesh names hlen]
    rfl
  · have hr : make_from_mesh mesh names
        = .ok (resultOf (make_from_mesh mesh names)) := by
      rw [make_from_mesh_ok_eq mesh names hlen]
      rfl
    obtain ⟨surf, h1, h2, hrev, h4, _, hknd, hkmem⟩ :=
      final_surface_state mesh names (resultOf (make_from_mesh mesh names)) s
        hnd hr (by intro hc; rw [hc] at h3; simp at h3)
    refine ⟨surf, h1, h2, ?_, h4, ?_⟩
    · rw [hrev, if_neg (by omega)]
    · exact le_antisymm (List.nodup_iff_count_le_one.1 hknd s)
        (List.count_pos_iff.2 hkmem)

/-- Claim C3: the number of surface entities created equals the number of
distinct surface ids across all volumes' adjacency lists. -/
theorem claim_C3_surface_count (mesh : MeshProvider) (names : List String)
    (r : BuildResult)
    (hnd : ∀ adj ∈ mesh.volumes, adj.Nodup)
    (hr : make_from_mesh mesh names = .ok r) :
    (surfaceEntities r).length = (allSurfaceIds mesh).toFinset.card := by
  obtain ⟨st, hre, hvlen, hinv⟩ := build_inv mesh names r hr hnd
  have hks_r : r.known_surfaces = st.known_surfaces := by rw [hre]; rfl
  have hkeys := hinv.keys_eq
  rw [catAdj_zip st.volume_sets mesh.volumes hvlen] at hkeys
  unfold surfaceEntities
  rw [hks_r, List.length_map]
  have : st.known_surfaces.length
      = (st.known_surfaces.map Prod.fst).length := by
    rw [List.length_map]
  rw [this, hkeys, dedupFirst_length]
  rfl

/-- Claim C6: each surface id's facet geometry is extracted exactly once, at
its first encounter: the extraction log is exactly the first-occurrence
deduplication of the concatenated adjacency lists, in encounter order. -/
theorem claim_C6_extract_once (mesh : MeshProvider) (names : List String)
    (r : BuildResult)
    (hnd : ∀ adj ∈ mesh.volumes, adj.Nodup)
    (hr : make_from_mesh mesh names = .ok r) :
    r.core.extraction_log = dedupFirst (allSurfaceIds mesh) ∧
    r.core.extraction_log.Nodup := by
  obtain ⟨st, hre, hvlen, hinv⟩ := build_inv mesh names r hr hnd
  have hlog_r : r.core.extraction_log = st.core.extraction_log := by
    rw [hre]; rfl
  have hkeys := hinv.keys_eq
  rw [catAdj_zip st.volume_sets mesh.volumes hvlen] at hkeys
  have hlog : r.core.extraction_log = dedupFirst (allSurfaceIds mesh) := by
    rw [hlog_r, hinv.log_eq, hkeys]
    rfl
  exact ⟨hlog, by rw [hlog]; exact dedupFirst_nodup _⟩

/-- Claim C7: for the volume at index `i`, exactly one fresh group entity is
created (group handles are pairwise distinct, one per volume), its name tag
is `"mat:" ++ material_names[i]`, and its member set is exactly the volume
entity of index `i`. -/
theorem claim_C7_groups (mesh : MeshProvider) (names : List String)
    (r : BuildResult) (i : Nat)
    (hnd : ∀ adj ∈ mesh.volumes, adj.Nodup)
    (hr : make_from_mesh mesh names = .ok r)
    (hi : i < mesh.volumes.length) :
    r.group_sets.length = mesh.volumes.length ∧
    r.group_sets.Nodup ∧
    tagLookup r.core.name_tag (r.group_sets.getD i 0) =
      some ("mat:" ++ names.getD i "") ∧
    r.core.getContents (r.group_sets.getD i 0) =
      [r.volume_sets.getD i 0] := by
  obtain ⟨st, hre, hvlen, hinv⟩ := build_inv mesh names r hr hnd
  have hgs_r : r.group_sets = st.group_sets := by rw [hre]; rfl
  have hvs_r : r.volume_sets = st.volume_sets := by rw [hre]; rfl
  have hnm_r : r.core.name_tag = st.core.name_tag := by rw [hre]; rfl
  have hdlen : (st.volume_sets.zip mesh.volumes).length
      = mesh.volumes.length := by
    rw [List.length_zip, hvlen]
    exact min_self _
  have hglen : st.group_sets.length = mesh.volumes.length := by
    rw [hinv.groups_len, hdlen]
  have hidone : i < (st.volume_sets.zip mesh.volumes).length := by
    rw [hdlen]
    exact hi
  have hgmem : st.group_sets.getD i 0 ∈ st.group_sets :=
    getD_mem_of_lt _ i (by rw [hglen]; exact hi)
  have hglt := (hinv.groups_lt _ hgmem).2
  refine ⟨by rw [hgs_r]; exact hglen, by rw [hgs_r]; exact hinv.groups_nodup,
    ?_, ?_⟩
  · rw [hnm_r, hgs_r]
    exact hinv.group_name i hidone
  · have hcr : r.core.set_contents
        = (st.core.next_handle,
            st.core.getContents st.core.next_handle ++ st.core.entities) ::
          st.core.set_contents := by
      rw [hre]
      exact finalize_set_contents st
    unfold Core.getContents
    rw [hcr, hgs_r, hvs_r, tagLookup_cons_ne _ _ _ _ (by omega)]
    exact hinv.group_members i hidone

/-- Claim C5 (amended): the file set is tagged `faceting_tol = 1e-3` and its
member set is, as a multiset, exactly all volume, group and surface entities
TOGETHER WITH all facet mesh entities loaded from the surface patches (the
root-set enumeration of line 393 includes the loaded facet entities, so they
become members too). -/
theorem claim_C5_file_set_amended (mesh : MeshProvider) (names : List String)
    (r : BuildResult)
    (hnd : ∀ adj ∈ mesh.volumes, adj.Nodup)
    (hr : make_from_mesh mesh names = .ok r) :
    (r.core.getContents r.file_set : Multiset Nat) =
      ↑r.volume_sets + ↑r.group_sets + ↑(surfaceEntities r) +
      ↑r.core.facet_entities ∧
    tagLookup r.core.faceting_tol r.file_set = some faceting_tol_value := by
  obtain ⟨st, hre, hvlen, hinv⟩ := build_inv mesh names r hr hnd
  have hfs : r.file_set = st.core.next_handle := by rw [hre]; rfl
  have hcontents : r.core.getContents r.file_set = st.core.entities := by
    unfold Core.getContents
    rw [hre, finalize_set_contents st, finalize_file_set st,
      tagLookup_cons_self]
    show (st.core.getContents st.core.next_handle ++ st.core.entities) = _
    unfold Core.getContents
    rw [tagLookup_none_of_keys_lt _ _ (fun p hp => hinv.contents_lt p hp)]
    rfl
  refine ⟨?_, ?_⟩
  · rw [hcontents]
    have := hinv.ents_ms
    rw [this, hre]
    rfl
  · rw [hre, finalize_faceting_tol st, finalize_file_set st,
      tagLookup_cons_self]

/-- Claim C5, counterexample to the original statement: on a single volume
with one surface whose patch holds one facet entity, the file set's member
set strictly exceeds the volume, group and surface entities (it also holds
the facet entity), so the claimed set equality fails. -/
theorem claim_C5_counterexample :
    (cexResult.core.getContents cexResult.file_set).toFinset = {1, 2, 3, 4} ∧
    (cexResult.volume_sets ++ cexResult.group_sets ++
      surfaceEntities cexResult).toFinset = {1, 2, 3} ∧
    ({1, 2, 3, 4} : Finset Nat) ≠ {1, 2, 3} := by
  refine ⟨by decide, by decide, by decide⟩

/-- Claim C4: on a volume/material-name count mismatch, construction fails
with the validation error before any entity is created — the database at the
raise holds no entities and differs from a fresh core only by the created
tag schema. -/
theorem claim_C4_count_mismatch (mesh : MeshProvider) (names : List String)
    (h : mesh.volumes.length ≠ names.length) :
    make_from_mesh mesh names =
      .error ("Number of volumes does not match number of material names",
        { Core.init with tag_defs := fullSchemaDefs }) ∧
    ({ Core.init with tag_defs := fullSchemaDefs } : Core).entities = [] ∧
    ({ Core.init with tag_defs := fullSchemaDefs } : Core).next_handle
      = Core.init.next_handle ∧
    create_tag_schema Core.init.tag_defs = .ok fullSchemaDefs :=
  ⟨make_from_mesh_error_eq mesh names h, rfl, rfl, rfl⟩

/-! ### Schema idempotence (claim C9) -/

theorem exceptBind_ok {α β : Type} {e : Except String α}
    {f : α → Except String β} {b : β} (h : (e >>= f) = .ok b) :
    ∃ a, e = .ok a ∧ f a = .ok b := by
  cases e with
  | ok a => exact ⟨a, rfl, h⟩
  | error s => exact absurd h (by simp [Bind.bind, Except.bind])

theorem exceptBind_ok_eq {α β : Type} (a : α) (f : α → Except String β) :
    ((Except.ok a : Except String α) >>= f) = f a := rfl

theorem tag_get_handle_ok_find {defs defs' : List TagDef} {n : String}
    {s : Nat} {ty : TagType} (h : tag_get_handle defs n s ty = .ok defs') :
    ∃ d, defs'.find? (fun d => d.name == n) = some d ∧
      d.size = s ∧ d.type = ty := by
  unfold tag_get_handle at h
  cases hf : defs.find? (fun d => d.name == n) with
  | some d =>
    rw [hf] at h
    dsimp only at h
    by_cases hc : d.size = s ∧ d.type = ty
    · rw [if_pos hc] at h
      have hd : defs = defs' := Except.ok.inj h
      exact ⟨d, by rw [← hd]; exact hf, hc.1, hc.2⟩
    · rw [if_neg hc] at h
      exact absurd h (by simp)
  | none =>
    rw [hf] at h
    have hd : defs ++ [⟨n, s, ty⟩] = defs' := Except.ok.inj h
    refine ⟨⟨n, s, ty⟩, ?_, rfl, rfl⟩
    rw [← hd, List.find?_append, hf]
    simp [List.find?_cons]

theorem tag_get_handle_stable {defs defs' : List TagDef} {n : String}
    {s : Nat} {ty : TagType} (h : tag_get_handle defs n s ty = .ok defs')
    {n' : String} {d' : TagDef}
    (hf : defs.find? (fun d => d.name == n') = some d') :
    defs'.find? (fun d => d.name == n') = some d' := by
  unfold tag_get_handle at h
  cases hfn : defs.find? (fun d => d.name == n) with
  | some d =>
    rw [hfn] at h
    dsimp only at h
    by_cases hc : d.size = s ∧ d.type = ty
    · rw [if_pos hc] at h
      rw [← Except.ok.inj h]
      exact hf
    · rw [if_neg hc] at h
      exact absurd h (by simp)
  | none =>
    rw [hfn] at h
    rw [← Except.ok.inj h, List.find?_append, hf]
    rfl

theorem tag_get_handle_of_find {defs : List TagDef} {n : String} {s : Nat}
    {ty : TagType} {d : TagDef}
    (hf : defs.find? (fun d => d.name == n) = some d)
    (hs : d.size = s) (ht : d.type = ty) :
    tag_get_handle defs n s ty = .ok defs := by
  unfold tag_get_handle
  rw [hf]
  dsimp only
  rw [if_pos ⟨hs, ht⟩]

theorem tag_get_handle_nodup {defs defs' : List TagDef} {n : String}
    {s : Nat} {ty : TagType} (h : tag_get_handle defs n s ty = .ok defs')
    (hnd : (defs.map TagDef.name).Nodup) :
    (defs'.map TagDef.name).Nodup := by
  unfold tag_get_handle at h
  cases hfn : defs.find? (fun d => d.name == n) with
  | some d =>
    rw [hfn] at h
    dsimp only at h
    by_cases hc : d.size = s ∧ d.type = ty
    · rw [if_pos hc] at h
      rw [← Except.ok.inj h]
      exact hnd
    · rw [if_neg hc] at h
      exact absurd h (by simp)
  | none =>
    rw [hfn] at h
    rw [← Except.ok.inj h, List.map_append, List.nodup_append]
    refine ⟨hnd, by simp, ?_⟩
    intro a ha hb
    have hb' : a = n := by simpa using hb
    obtain ⟨d, hd, he⟩ := List.mem_map.1 ha
    have hne := List.find?_eq_none.1 hfn d hd
    rw [he, hb'] at hne
    simp at hne

theorem tag_get_handle_existing_ok {defs defs' : List TagDef} {n : String}
    (h : tag_get_handle_existing defs n = .ok defs') :
    defs' = defs ∧ ∃ d, defs.find? (fun d => d.name == n) = some d := by
  unfold tag_get_handle_existing at h
  cases hf : defs.find? (fun d => d.name == n) with
  | some d =>
    rw [hf] at h
    dsimp only at h
    exact ⟨(Except.ok.inj h).symm, d, rfl⟩
  | none =>
    rw [hf] at h
    exact absurd h (by simp)

theorem tag_get_handle_existing_of_find {defs : List TagDef} {n : String}
    {d : TagDef} (hf : defs.find? (fun d => d.name == n) = some d) :
    tag_get_handle_existing defs n = .ok defs := by
  unfold tag_get_handle_existing
  rw [hf]

/-- Claim C9: tag-schema creation is idempotent.  When a first run succeeds
(in particular no pre-existing tag of the same name has an incompatible
type/size), a second run on its output errors nowhere and returns the very
same definitions; moreover it introduces no duplicate definitions. -/
theorem claim_C9_schema_idempotent (defs defs' : List TagDef)
    (h : create_tag_schema defs = .ok defs') :
    create_tag_schema defs' = .ok defs' ∧
    ((defs.map TagDef.name).Nodup → (defs'.map TagDef.name).Nodup) := by
  unfold create_tag_schema at h
  obtain ⟨d1, h1, h⟩ := exceptBind_ok h
  obtain ⟨d2, h2, h⟩ := exceptBind_ok h
  obtain ⟨d3, h3, h⟩ := exceptBind_ok h
  obtain ⟨d4, h4, h⟩ := exceptBind_ok h
  obtain ⟨d5, h5, h⟩ := exceptBind_ok h
  obtain ⟨d6, h6, h⟩ := exceptBind_ok h
  have hd6 : d6 = defs' := Except.ok.inj h
  obtain ⟨hd65, dG, hfG⟩ := tag_get_handle_existing_ok h6
  have hd5 : d5 = defs' := by rw [← hd6, hd65]
  subst hd5
  obtain ⟨e1, hf1, hs1, ht1⟩ := tag_get_handle_ok_find h1
  obtain ⟨e2, hf2, hs2, ht2⟩ := tag_get_handle_ok_find h2
  obtain ⟨e3, hf3, hs3, ht3⟩ := tag_get_handle_ok_find h3
  obtain ⟨e4, hf4, hs4, ht4⟩ := tag_get_handle_ok_find h4
  obtain ⟨e5, hf5, hs5, ht5⟩ := tag_get_handle_ok_find h5
  have hf1' := tag_get_handle_stable h5 (tag_get_handle_stable h4
    (tag_get_handle_stable h3 (tag_get_handle_stable h2 hf1)))
  have hf2' := tag_get_handle_stable h5 (tag_get_handle_stable h4
    (tag_get_handle_stable h3 hf2))
  have hf3' := tag_get_handle_stable h5 (tag_get_handle_stable h4 hf3)
  have hf4' := tag_get_handle_stable h5 hf4
  constructor
  · simp only [create_tag_schema, exceptBind_ok_eq,
      tag_get_handle_of_find hf1' hs1 ht1,
      tag_get_handle_of_find hf2' hs2 ht2,
      tag_get_handle_of_find hf3' hs3 ht3,
      tag_get_handle_of_find hf4' hs4 ht4,
      tag_get_handle_of_find hf5 hs5 ht5,
      tag_get_handle_existing_of_find hfG]
    rfl
  · intro hnd
    exact tag_get_handle_nodup h5 (tag_get_handle_nodup h4
      (tag_get_handle_nodup h3 (tag_get_handle_nodup h2
        (tag_get_handle_nodup h1 hnd))))

/-- Claim C10: on a mesh with zero volumes and an empty material-name list,
construction succeeds and the database holds exactly one created entity: the
file set, tagged `faceting_tol = 1e-3`, with an empty member set. -/
theorem claim_C10_empty_mesh :
    make_from_mesh emptyMesh [] = .ok emptyResult ∧
    emptyResult.core.entities = [emptyResult.file_set] ∧
    tagLookup emptyResult.core.faceting_tol emptyResult.file_set
      = some faceting_tol_value ∧
    emptyResult.core.getContents emptyResult.file_set = [] :=
  ⟨rfl, rfl, rfl, rfl⟩

/-! ### Witnesses: each hypothesized claim theorem applied at a concrete
input (the spec's two-volume scenario, the three-volume non-manifold mesh,
and a count mismatch). -/

theorem claim_C1_witness :
    (∀ adj ∈ exMesh.volumes, adj.Nodup) ∧
    make_from_mesh exMesh exNames = .ok exResult ∧
    volumesContaining exMesh 2 = [0, 1] ∧
    (∃ surf, regLookup exResult.known_surfaces 2 = some surf ∧
      tagLookup exResult.core.surf_sense surf.handle =
        some [exResult.volume_sets.getD 0 0, exResult.volume_sets.getD 1 0] ∧
      exResult.volume_sets.getD 0 0 ≠ 0 ∧
      exResult.volume_sets.getD 1 0 ≠ 0) :=
  ⟨by decide, rfl, by decide,
    claim_C1_interior_surf_sense exMesh exNames exResult 2 0 1
      (by decide) rfl (by decide)⟩

theorem claim_C2_witness :
    (∀ adj ∈ exMesh.volumes, adj.Nodup) ∧
    make_from_mesh exMesh exNames = .ok exResult ∧
    volumesContaining exMesh 1 = [0] ∧
    (∃ surf, regLookup exResult.known_surfaces 1 = some surf ∧
      tagLookup exResult.core.surf_sense surf.handle =
        some [exResult.volume_sets.getD 0 0, 0] ∧
      exResult.volume_sets.getD 0 0 ≠ 0) :=
  ⟨by decide, rfl, by decide,
    claim_C2_boundary_surf_sense exMesh exNames exResult 1 0
      (by decide) rfl (by decide)⟩

theorem claim_C3_witness :
    (∀ adj ∈ exMesh.volumes, adj.Nodup) ∧
    make_from_mesh exMesh exNames = .ok exResult ∧
    (surfaceEntities exResult).length = (allSurfaceIds exMesh).toFinset.card :=
  ⟨by decide, rfl,
    claim_C3_surface_count exMesh exNames exResult (by decide) rfl⟩

theorem claim_C4_witness :
    cexMesh.volumes.length ≠ ([] : List String).length ∧
    (make_from_mesh cexMesh [] =
      .error ("Number of volumes does not match number of material names",
        { Core.init with tag_defs := fullSchemaDefs }) ∧
    ({ Core.init with tag_defs := fullSchemaDefs } : Core).entities = [] ∧
    ({ Core.init with tag_defs := fullSchemaDefs } : Core).next_handle
      = Core.init.next_handle ∧
    create_tag_schema Core.init.tag_defs = .ok fullSchemaDefs) :=
  ⟨by decide, claim_C4_count_mismatch cexMesh [] (by decide)⟩

theorem claim_C5_witness :
    (∀ adj ∈ exMesh.volumes, adj.Nodup) ∧
    make_from_mesh exMesh exNames = .ok exResult ∧
    ((exResult.core.getContents exResult.file_set : Multiset Nat) =
      ↑exResult.volume_sets + ↑exResult.group_sets +
      ↑(surfaceEntities exResult) + ↑exResult.core.facet_entities ∧
    tagLookup exResult.core.faceting_tol exResult.file_set
      = some faceting_tol_value) :=
  ⟨by decide, rfl,
    claim_C5_file_set_amended exMesh exNames exResult (by decide) rfl⟩

theorem claim_C6_witness :
    (∀ adj ∈ exMesh.volumes, adj.Nodup) ∧
    make_from_mesh exMesh exNames = .ok exResult ∧
    (exResult.core.extraction_log = dedupFirst (allSurfaceIds exMesh) ∧
      exResult.core.extraction_log.Nodup) :=
  ⟨by decide, rfl,
    claim_C6_extract_once exMesh exNames exResult (by decide) rfl⟩

theorem claim_C7_witness :
    (∀ adj ∈ exMesh.volumes, adj.Nodup) ∧
    make_from_mesh exMesh exNames = .ok exResult ∧
    0 < exMesh.volumes.length ∧
    (exResult.group_sets.length = exMesh.volumes.length ∧
    exResult.group_sets.Nodup ∧
    tagLookup exResult.core.name_tag (exResult.group_sets.getD 0 0) =
      some ("mat:" ++ exNames.getD 0 "") ∧
    exResult.core.getContents (exResult.group_sets.getD 0 0) =
      [exResult.volume_sets.getD 0 0]) :=
  ⟨by decide, rfl, by decide,
    claim_C7_groups exMesh exNames exResult 0 (by decide) rfl (by decide)⟩

theorem claim_C8_witness :
    (∀ adj ∈ triMesh.volumes, adj.Nodup) ∧
    triMesh.volumes.length = triNames.length ∧
    3 ≤ (volumesContaining triMesh 5).length ∧
    (∃ r, make_from_mesh triMesh triNames = .ok r ∧
      ∃ surf, regLookup r.known_surfaces 5 = some surf ∧
        surf.forward_volume =
          r.volume_sets.getD ((volumesContaining triMesh 5).headD 0) 0 ∧
        surf.reverse_volume =
          r.volume_sets.getD ((volumesContaining triMesh 5).getLastD 0) 0 ∧
        tagLookup r.core.surf_sense surf.handle =
          some [surf.forward_volume, surf.reverse_volume] ∧
        (r.known_surfaces.map Prod.fst).count 5 = 1) :=
  ⟨by decide, by decide, by decide,
    claim_C8_third_encounter triMesh triNames 5 (by decide) (by decide)
      (by decide)⟩

theorem claim_C9_witness :
    create_tag_schema Core.init.tag_defs = .ok fullSchemaDefs ∧
    (create_tag_schema fullSchemaDefs = .ok fullSchemaDefs ∧
      ((Core.init.tag_defs.map TagDef.name).Nodup →
        (fullSchemaDefs.map TagDef.name).Nodup)) :=
  ⟨rfl, claim_C9_schema_idempotent Core.init.tag_defs fullSchemaDefs rfl⟩

end Stellarmesh
